import Mathlib

/-!
Verification development for the bless-network client (src/index.js).

The program is embedded shallowly: each JavaScript function becomes a Lean
function over explicit oracles describing the outcomes of network calls and
the random draws, and returns the list of observable events it produces
(requests issued, log lines, delays, process exits) together with its result.
Machine behaviour that the claims mention (the unguarded dereference of the
session object, the construction of the hardware snapshot) is recorded as an
explicit event so that the traces expose it.
-/

namespace Bless

/-- Hardware snapshot fields, mirroring the object literal
built from process.platform, process.arch, process.version. -/
structure HardwareInfo where
  platform : String
  arch : String
  version : String
deriving DecidableEq, Repr

/-- Process environment: the two required variables plus the host
properties the hardware snapshot reads. -/
structure ProcEnv where
  nodeIdEnv : Option String
  authTokenEnv : Option String
  platform : String
  arch : String
  version : String
deriving DecidableEq, Repr

/-- JavaScript template rendering of a possibly-undefined string. -/
def jsStr (o : Option String) : String :=
  match o with
  | some s => s
  | none => "undefined"

/-- JavaScript falsiness test for a possibly-undefined environment string:
undefined and the empty string are falsy. -/
def isFalsy (o : Option String) : Bool :=
  match o with
  | some s => s == ""
  | none => true

/-- Hardware snapshot construction (the object literal at lines 128-132 and
182-186 of src/index.js). -/
def hwSnapshot (env : ProcEnv) : HardwareInfo :=
  { platform := env.platform, arch := env.arch, version := env.version }

def extensionVersion : String := "0.1.7"

def logTag : String := "[Bless Network]"

def baseUrl : String := "https://gateway-run.bls.dev/api/v1"

def myipUrl : String := "https://api.myip.com"

def nodeInfoUrl (nid : String) : String := baseUrl ++ "/nodes/" ++ nid

def startSessionUrl (nid : String) : String :=
  baseUrl ++ "/nodes/" ++ nid ++ "/start-session"

def pingSessionUrl (nid : String) : String :=
  baseUrl ++ "/nodes/" ++ nid ++ "/ping"

def stopSessionUrl (nid : String) : String :=
  baseUrl ++ "/nodes/" ++ nid ++ "/stop-session"

/-- Body of a gateway response, as far as the program inspects it:
the raw JSON text (what JSON.stringify would print), the optional
session identifier field and the optional totalReward field. -/
structure RespBody where
  raw : String
  idField : Option String
  totalReward : Option Nat
deriving DecidableEq, Repr

/-- Outcome of one HTTP exchange as supplied by the environment:
either a response with a status code and body, or a transport-level
failure carrying an error message. -/
inductive NetOutcome where
  | http (status : Nat) (body : RespBody)
  | transport (msg : String)
deriving DecidableEq, Repr

/-- Outcome of the IP-echo exchange: a status code with the reported
IP string, or a transport failure. -/
inductive IpOutcome where
  | http (status : Nat) (ip : String)
  | transport (msg : String)
deriving DecidableEq, Repr

/-- JSON body of an outbound POST, as far as the program fills it. -/
structure ReqBody where
  ipAddress : Option String
  hardwareInfo : Option HardwareInfo
  extVersion : Option String
  sessionId : Option String
deriving DecidableEq, Repr

/-- One outbound request as it leaves the process: target URL, method,
whether it was routed through a pool proxy agent, whether it carried the
default header set (including the Authorization header), the rendered
Authorization value, optional headers carrying ip and hardware data, and
the optional JSON body. -/
structure ReqEvent where
  url : String
  method : String
  proxied : Bool
  defaultHdrs : Bool
  authHeader : String
  ipHeader : Option String
  hwHeader : Option HardwareInfo
  body : Option ReqBody
deriving DecidableEq, Repr

/-- Observable events of a run. derefSession records each evaluation of
the expression currentSession._id in the ping path (line 219), with the
flag telling whether the session object was present; hwQuery records each
construction of the hardware snapshot from the host properties. -/
inductive Event where
  | req (r : ReqEvent)
  | log (s : String)
  | derefSession (present : Bool)
  | hwQuery (hw : HardwareInfo)
  | delayMs (q : ℚ)
  | exited (code : Nat)
deriving DecidableEq, Repr

/-- Requests contained in a trace. -/
def reqsOf (evs : List Event) : List ReqEvent :=
  evs.filterMap fun e =>
    match e with
    | .req r => some r
    | _ => none

/-- Log lines contained in a trace. -/
def logsOf (evs : List Event) : List String :=
  evs.filterMap fun e =>
    match e with
    | .log s => some s
    | _ => none

/-- Hardware snapshot constructions contained in a trace. -/
def hwQueriesOf (evs : List Event) : List HardwareInfo :=
  evs.filterMap fun e =>
    match e with
    | .hwQuery h => some h
    | _ => none

/-- Exit events contained in a trace. -/
def exitsOf (evs : List Event) : List Nat :=
  evs.filterMap fun e =>
    match e with
    | .exited c => some c
    | _ => none

/-- Session dereference events contained in a trace. -/
def derefsOf (evs : List Event) : List Bool :=
  evs.filterMap fun e =>
    match e with
    | .derefSession b => some b
    | _ => none

/-- Error message built at line 109 for a non-200 response. -/
def httpErrMsg (status : Nat) (raw : String) : String :=
  "HTTP Error " ++ toString status ++ ": " ++ raw

/-- Log line printed at line 114 when a request fails. -/
def requestFailLog (msg : String) : String :=
  logTag ++ " Request failed: " ++ msg

/-- The request record makeRequest sends: through a random pool proxy,
with the merged default headers (including Authorization). -/
def mkReqEvent (tok url method : String) (hwHdr : Option HardwareInfo)
    (ipHdr : Option String) (body : Option ReqBody) : ReqEvent :=
  { url := url, method := method, proxied := true, defaultHdrs := true,
    authHeader := "Bearer " ++ tok, ipHeader := ipHdr, hwHeader := hwHdr,
    body := body }

/-- Embedding of makeRequest (lines 94-119): issues the request through a
proxy agent with the default headers; a status other than exactly 200
raises an error carrying the status and the full stringified body; any
failure is logged and followed by a 5 second delay before rethrowing. -/
def makeRequestRun (tok url method : String) (hwHdr : Option HardwareInfo)
    (ipHdr : Option String) (body : Option ReqBody) (o : NetOutcome) :
    List Event × Except String RespBody :=
  let r := mkReqEvent tok url method hwHdr ipHdr body
  match o with
  | .http s b =>
      if s = 200 then
        ([Event.req r], Except.ok b)
      else
        ([Event.req r, Event.log (requestFailLog (httpErrMsg s b.raw)),
          Event.delayMs 5000], Except.error (httpErrMsg s b.raw))
  | .transport m =>
      ([Event.req r, Event.log (requestFailLog m), Event.delayMs 5000],
        Except.error m)

/-- The request record getIpAddress sends: a bare call on the axios
instance, with no proxy agent and no default headers. -/
def ipReqEvent : ReqEvent :=
  { url := myipUrl, method := "GET", proxied := false, defaultHdrs := false,
    authHeader := "", ipHeader := none, hwHeader := none, body := none }

/-- Embedding of getIpAddress (lines 79-91): calls the IP-echo endpoint
directly on the axios instance; on any failure logs and returns the
sentinel string unknown. -/
def getIpAddressRun (o : IpOutcome) : List Event × String :=
  match o with
  | .http s ip =>
      if s = 200 then
        ([Event.req ipReqEvent], ip)
      else
        ([Event.req ipReqEvent,
          Event.log ("Failed to fetch IP address: HTTP error! status: " ++
            toString s)], "unknown")
  | .transport m =>
      ([Event.req ipReqEvent,
        Event.log ("Failed to fetch IP address: " ++ m)], "unknown")

/-- Logs that makeRequest produces, as a function of the network outcome
alone. -/
def failureLogsOf (o : NetOutcome) : List String :=
  match o with
  | .http s b =>
      if s = 200 then [] else [requestFailLog (httpErrMsg s b.raw)]
  | .transport m => [requestFailLog m]

/-- Jitter slept at line 212 before each ping, for a uniform draw r. -/
def jitterDelayMs (r : ℚ) : ℚ := 1000 + r * 4000

/-- One entry of the proxy pool, exactly as destructured at line 44:
each field is absent when the split produced no such component. -/
structure ProxyEntry where
  host : Option String
  port : Option String
  username : Option String
  password : Option String
deriving DecidableEq, Repr

/-- Split a character list at each colon, the semantics of the
JavaScript call line.split at line 44: the empty string yields one
empty field, a trailing colon yields a trailing empty field. -/
def splitColsAux : List Char → List Char → List String
  | [], acc => [String.mk acc.reverse]
  | c :: cs, acc =>
      if c = ':' then String.mk acc.reverse :: splitColsAux cs []
      else splitColsAux cs (c :: acc)

/-- Fields of one proxy line, colon separated. -/
def splitCols (line : String) : List String :=
  splitColsAux line.data []

/-- Parse one line of proxies.txt (line 44): split on the colon and take
the first four components, absent ones staying undefined. -/
def parseProxyLine (line : String) : ProxyEntry :=
  let fs := splitCols line
  { host := fs[0]?, port := fs[1]?, username := fs[2]?, password := fs[3]? }

/-- The line handler pushes an entry for every line, so the pool is the
image of the file lines under parseProxyLine. -/
def loadProxies (lines : List String) : List ProxyEntry :=
  lines.map parseProxyLine

/-- Render one pool entry as the proxy URL template of line 59; absent
fields render as the literal text undefined. -/
def renderProxyUrl (p : ProxyEntry) : String :=
  "http://" ++ jsStr p.username ++ ":" ++ jsStr p.password ++ "@" ++
    jsStr p.host ++ ":" ++ jsStr p.port

/-- Embedding of getRandomProxy (lines 57-60): the random draw is the
index i into the pool. -/
def getRandomProxy (ps : List ProxyEntry) (i : Fin ps.length) : String :=
  renderProxyUrl (ps.get i)

/-- Startup check at lines 49-52: the only validation of the pool is
whether it is empty. -/
def proxyPoolEmpty (lines : List String) : Bool :=
  (loadProxies lines).length == 0

/-- Mutable state of the session loop: the session object returned by
start-session, and the timestamp of the last successful ping. -/
structure MainState where
  currentSession : Option RespBody
  lastPingTime : Option Nat
deriving DecidableEq, Repr

/-- Environment inputs consumed by the startup sequence of main:
the first IP lookup, the node-info response, the IP lookup performed
inside startSession, and the start-session response. -/
structure StartupOracle where
  ip1 : IpOutcome
  nodeData : NetOutcome
  startIp : IpOutcome
  startResp : NetOutcome
deriving DecidableEq, Repr

/-- Environment inputs consumed by one firing of the ping interval. -/
structure CycleOracle where
  jitterR : ℚ
  ipOutcome : IpOutcome
  pingResp : NetOutcome
  now : Nat
deriving DecidableEq, Repr

/-- Rendered node identifier and bearer token as main uses them. -/
def envNodeId (env : ProcEnv) : String := jsStr env.nodeIdEnv

def envToken (env : ProcEnv) : String := jsStr env.authTokenEnv

/-- Body of the start-session POST (lines 136-140). -/
def startBody (ip : String) (hw : HardwareInfo) : ReqBody :=
  { ipAddress := some ip, hardwareInfo := some hw,
    extVersion := some extensionVersion, sessionId := none }

/-- Body of the ping POST (lines 153-158) for session object d. -/
def pingBody (ip : String) (hw : HardwareInfo) (d : RespBody) : ReqBody :=
  { ipAddress := some ip, hardwareInfo := some hw,
    extVersion := some extensionVersion, sessionId := d.idField }

/-- Embedding of startSession (lines 125-146): resolve the IP, build a
fresh hardware snapshot, POST the start-session body; on any failure log
and return none. -/
def startSessionRun (env : ProcEnv) (ipo : IpOutcome) (o : NetOutcome) :
    List Event × Option RespBody :=
  let ipr := getIpAddressRun ipo
  let hw := hwSnapshot env
  let mk := makeRequestRun (envToken env) (startSessionUrl (envNodeId env))
    "POST" none none (some (startBody ipr.2 hw)) o
  match mk.2 with
  | .ok d => (ipr.1 ++ [Event.hwQuery hw] ++ mk.1, some d)
  | .error m =>
      (ipr.1 ++ [Event.hwQuery hw] ++ mk.1 ++
        [Event.log ("Error starting session: " ++ m)], none)

/-- Embedding of one firing of the interval callback (lines 209-231),
with hw the snapshot main captured. The callback sleeps the jitter,
resolves the IP, then evaluates currentSession._id while building the
sendPing argument (line 219): with no session set this dereference
raises, the catch logs the failure and sleeps 5 seconds; with a session
set, sendPing posts the ping body and on failure logs and returns null,
leaving the state unchanged. -/
def pingCycleRun (env : ProcEnv) (hw : HardwareInfo) (st : MainState)
    (co : CycleOracle) : List Event × MainState :=
  let jd := [Event.delayMs (jitterDelayMs co.jitterR)]
  let ipr := getIpAddressRun co.ipOutcome
  match st.currentSession with
  | none =>
      (jd ++ ipr.1 ++
        [Event.derefSession false,
         Event.log (logTag ++
           " Ping failed: TypeError: cannot read _id of null"),
         Event.delayMs 5000], st)
  | some d =>
      let mk := makeRequestRun (envToken env)
        (pingSessionUrl (envNodeId env)) "POST" none none
        (some (pingBody ipr.2 hw d)) co.pingResp
      match mk.2 with
      | .ok d2 =>
          (jd ++ ipr.1 ++ [Event.derefSession true] ++ mk.1 ++
            [Event.log (logTag ++ " Ping successful"),
             Event.log (logTag ++ " Current rewards: " ++
               toString (d2.totalReward.getD 0))],
            { st with lastPingTime := some co.now })
      | .error m =>
          (jd ++ ipr.1 ++ [Event.derefSession true] ++ mk.1 ++
            [Event.log ("Error sending ping: " ++ m)], st)

/-- Run the interval over a list of firings, threading the state. -/
def runCycles (env : ProcEnv) (hw : HardwareInfo) (st : MainState) :
    List CycleOracle → List Event × MainState
  | [] => ([], st)
  | co :: rest =>
      let p := pingCycleRun env hw st co
      let q := runCycles env hw p.2 rest
      (p.1 ++ q.1, q.2)

/-- Events of the fatal path of main (lines 239-243): log the cause,
sleep the 30 second cooldown, exit with code 1. -/
def fatalEvents (msg : String) : List Event :=
  [Event.log (logTag ++ " Fatal Error: " ++ msg), Event.delayMs 30000,
   Event.exited 1]

/-- Embedding of main (lines 172-244): settle delay, first IP lookup,
hardware snapshot, node-info fetch, session start; a failure of the
node-info fetch or of the session start reaches the fatal path; on
success the interval is installed and the supplied firings run. -/
def mainRun (env : ProcEnv) (so : StartupOracle)
    (cycles : List CycleOracle) : List Event :=
  let d0 := [Event.delayMs 2000]
  let ipr := getIpAddressRun so.ip1
  let lg1 := [Event.log ("IP Address: " ++ ipr.2)]
  let hw := hwSnapshot env
  let nd := makeRequestRun (envToken env) (nodeInfoUrl (envNodeId env))
    "GET" (some hw) (some ipr.2) none so.nodeData
  match nd.2 with
  | .error m =>
      d0 ++ ipr.1 ++ lg1 ++ [Event.hwQuery hw] ++ nd.1 ++ fatalEvents m
  | .ok ndBody =>
      let lg2 := [Event.log ("Initial Node Data: " ++ ndBody.raw)]
      let ss := startSessionRun env so.startIp so.startResp
      match ss.2 with
      | none =>
          d0 ++ ipr.1 ++ lg1 ++ [Event.hwQuery hw] ++ nd.1 ++ lg2 ++
            ss.1 ++ fatalEvents "Failed to start session"
      | some d =>
          let lg3 :=
            [Event.log (logTag ++ " Session Started"),
             Event.log (logTag ++ " Session ID: " ++ jsStr d.idField),
             Event.log (logTag ++ " Node running successfully")]
          let cs := runCycles env hw
            { currentSession := some d, lastPingTime := none } cycles
          d0 ++ ipr.1 ++ lg1 ++ [Event.hwQuery hw] ++ nd.1 ++ lg2 ++
            ss.1 ++ lg3 ++ cs.1

/-- Whole-program run (module load then main): the environment check at
lines 69-72 exits before any network activity; the close handler at
lines 48-54 exits when the pool is empty; otherwise main runs. -/
def runProgram (env : ProcEnv) (lines : List String) (so : StartupOracle)
    (cycles : List CycleOracle) : List Event :=
  if isFalsy env.nodeIdEnv || isFalsy env.authTokenEnv then
    [Event.log (logTag ++ " Error: Missing required environment variables"),
     Event.exited 1]
  else if proxyPoolEmpty lines then
    [Event.log (logTag ++ " No proxies found in proxies.txt"),
     Event.exited 1]
  else
    mainRun env so cycles

/-- Request record of the stop-session call the SIGINT handler issues
for session object d. -/
def stopBody (d : RespBody) : ReqBody :=
  { ipAddress := none, hardwareInfo := none, extVersion := none,
    sessionId := d.idField }

def stopReqEvent (env : ProcEnv) (d : RespBody) : ReqEvent :=
  mkReqEvent (envToken env) (stopSessionUrl (envNodeId env)) "POST" none
    none (some (stopBody d))

/-- Embedding of the SIGINT handler (lines 247-261): with a session set,
one stop-session call carrying its identifier is issued and the outcome
only changes the log line; in every case the process exits with code 0. -/
def sigintHandlerRun (env : ProcEnv) (cs : Option RespBody)
    (o : NetOutcome) : List Event × Nat :=
  let lg := [Event.log (logTag ++ " Shutting down...")]
  match cs with
  | none => (lg ++ [Event.exited 0], 0)
  | some d =>
      let mk := makeRequestRun (envToken env)
        (stopSessionUrl (envNodeId env)) "POST" none none
        (some (stopBody d)) o
      match mk.2 with
      | .ok _ =>
          (lg ++ mk.1 ++ [Event.log (logTag ++ " Session ended successfully"),
            Event.exited 0], 0)
      | .error m =>
          (lg ++ mk.1 ++ [Event.log (logTag ++ " Error ending session: " ++ m),
            Event.exited 0], 0)

/-- Failure test for a network outcome, matching the check of line 108:
anything other than a response with status exactly 200. -/
def isNetFailure : NetOutcome → Bool
  | .http s _ => s != 200
  | .transport _ => true

/-- Session identifier carried in the body of a request, if any. -/
def bodySessionIdOf (r : ReqEvent) : Option String :=
  match r.body with
  | some b => b.sessionId
  | none => none

/-- Hardware snapshot carried in the body of a request, if any. -/
def bodyHwOf (r : ReqEvent) : Option HardwareInfo :=
  match r.body with
  | some b => b.hardwareInfo
  | none => none

/-- Concrete fixtures used by the closed theorems below. -/
def envOk : ProcEnv :=
  { nodeIdEnv := some "node-1", authTokenEnv := some "token-1",
    platform := "linux", arch := "x64", version := "v20.0.0" }

def hwOk : HardwareInfo := hwSnapshot envOk

def envNoId : ProcEnv := { envOk with nodeIdEnv := none }

def ndBodyOk : RespBody := { raw := "nd", idField := none, totalReward := none }

def sessBodyOk : RespBody :=
  { raw := "sr", idField := some "sess-1", totalReward := none }

def pingBodyOk : RespBody :=
  { raw := "pr", idField := none, totalReward := some 42 }

def soOk : StartupOracle :=
  { ip1 := IpOutcome.http 200 "1.2.3.4",
    nodeData := NetOutcome.http 200 ndBodyOk,
    startIp := IpOutcome.http 200 "1.2.3.4",
    startResp := NetOutcome.http 200 sessBodyOk }

def soNodeFail : StartupOracle :=
  { soOk with nodeData :=
      NetOutcome.http 500 { raw := "boom", idField := none,
                            totalReward := none } }

def coOk : CycleOracle :=
  { jitterR := 0, ipOutcome := IpOutcome.http 200 "5.6.7.8",
    pingResp := NetOutcome.http 200 pingBodyOk, now := 3 }

def coFail : CycleOracle :=
  { coOk with pingResp :=
      NetOutcome.http 500 { raw := "bad", idField := none,
                            totalReward := none } }

def stNone : MainState := { currentSession := none, lastPingTime := none }

def stSome : MainState :=
  { currentSession := some sessBodyOk, lastPingTime := none }

def linesOk : List String := ["h:1:u:p"]

/-- A response body of one thousand characters, used to exhibit the
absence of truncation in the error message. -/
def longRaw : String := String.mk (List.replicate 1000 'a')

def resp201 : RespBody := { raw := longRaw, idField := none, totalReward := none }

/-! Helper lemmas about the trace projections. -/

@[simp]
theorem reqsOf_append (a b : List Event) :
    reqsOf (a ++ b) = reqsOf a ++ reqsOf b := by
  simp [reqsOf]

@[simp]
theorem logsOf_append (a b : List Event) :
    logsOf (a ++ b) = logsOf a ++ logsOf b := by
  simp [logsOf]

@[simp]
theorem hwQueriesOf_append (a b : List Event) :
    hwQueriesOf (a ++ b) = hwQueriesOf a ++ hwQueriesOf b := by
  simp [hwQueriesOf]

@[simp]
theorem exitsOf_append (a b : List Event) :
    exitsOf (a ++ b) = exitsOf a ++ exitsOf b := by
  simp [exitsOf]

@[simp]
theorem derefsOf_append (a b : List Event) :
    derefsOf (a ++ b) = derefsOf a ++ derefsOf b := by
  simp [derefsOf]

@[simp]
theorem reqsOf_nil : reqsOf [] = [] := rfl

@[simp]
theorem logsOf_nil : logsOf [] = [] := rfl

@[simp]
theorem hwQueriesOf_nil : hwQueriesOf [] = [] := rfl

@[simp]
theorem exitsOf_nil : exitsOf [] = [] := rfl

@[simp]
theorem derefsOf_nil : derefsOf [] = [] := rfl

@[simp]
theorem reqsOf_cons (e : Event) (l : List Event) :
    reqsOf (e :: l) =
      (match e with
       | .req r => r :: reqsOf l
       | _ => reqsOf l) := by
  cases e <;> simp [reqsOf]

@[simp]
theorem logsOf_cons (e : Event) (l : List Event) :
    logsOf (e :: l) =
      (match e with
       | .log s => s :: logsOf l
       | _ => logsOf l) := by
  cases e <;> simp [logsOf]

@[simp]
theorem hwQueriesOf_cons (e : Event) (l : List Event) :
    hwQueriesOf (e :: l) =
      (match e with
       | .hwQuery h => h :: hwQueriesOf l
       | _ => hwQueriesOf l) := by
  cases e <;> simp [hwQueriesOf]

@[simp]
theorem exitsOf_cons (e : Event) (l : List Event) :
    exitsOf (e :: l) =
      (match e with
       | .exited c => c :: exitsOf l
       | _ => exitsOf l) := by
  cases e <;> simp [exitsOf]

@[simp]
theorem derefsOf_cons (e : Event) (l : List Event) :
    derefsOf (e :: l) =
      (match e with
       | .derefSession b => b :: derefsOf l
       | _ => derefsOf l) := by
  cases e <;> simp [derefsOf]

@[simp]
theorem reqsOf_getIpAddressRun (o : IpOutcome) :
    reqsOf (getIpAddressRun o).1 = [ipReqEvent] := by
  cases o with
  | http s ip =>
      by_cases h : s = 200 <;> simp [getIpAddressRun, reqsOf, h]
  | transport m => simp [getIpAddressRun, reqsOf]

@[simp]
theorem reqsOf_makeRequestRun (tok url method : String)
    (hw : Option HardwareInfo) (iph : Option String) (b : Option ReqBody)
    (o : NetOutcome) :
    reqsOf (makeRequestRun tok url method hw iph b o).1 =
      [mkReqEvent tok url method hw iph b] := by
  cases o with
  | http s rb =>
      by_cases h : s = 200 <;> simp [makeRequestRun, reqsOf, h]
  | transport m => simp [makeRequestRun, reqsOf]

@[simp]
theorem logsOf_makeRequestRun (tok url method : String)
    (hw : Option HardwareInfo) (iph : Option String) (b : Option ReqBody)
    (o : NetOutcome) :
    logsOf (makeRequestRun tok url method hw iph b o).1 = failureLogsOf o := by
  cases o with
  | http s rb =>
      by_cases h : s = 200 <;> simp [makeRequestRun, logsOf, failureLogsOf, h]
  | transport m => simp [makeRequestRun, logsOf, failureLogsOf]

@[simp]
theorem hwQueriesOf_getIpAddressRun (o : IpOutcome) :
    hwQueriesOf (getIpAddressRun o).1 = [] := by
  cases o with
  | http s ip =>
      by_cases h : s = 200 <;> simp [getIpAddressRun, hwQueriesOf, h]
  | transport m => simp [getIpAddressRun, hwQueriesOf]

@[simp]
theorem hwQueriesOf_makeRequestRun (tok url method : String)
    (hw : Option HardwareInfo) (iph : Option String) (b : Option ReqBody)
    (o : NetOutcome) :
    hwQueriesOf (makeRequestRun tok url method hw iph b o).1 = [] := by
  cases o with
  | http s rb =>
      by_cases h : s = 200 <;> simp [makeRequestRun, hwQueriesOf, h]
  | transport m => simp [makeRequestRun, hwQueriesOf]

@[simp]
theorem exitsOf_getIpAddressRun (o : IpOutcome) :
    exitsOf (getIpAddressRun o).1 = [] := by
  cases o with
  | http s ip =>
      by_cases h : s = 200 <;> simp [getIpAddressRun, exitsOf, h]
  | transport m => simp [getIpAddressRun, exitsOf]

@[simp]
theorem exitsOf_makeRequestRun (tok url method : String)
    (hw : Option HardwareInfo) (iph : Option String) (b : Option ReqBody)
    (o : NetOutcome) :
    exitsOf (makeRequestRun tok url method hw iph b o).1 = [] := by
  cases o with
  | http s rb =>
      by_cases h : s = 200 <;> simp [makeRequestRun, exitsOf, h]
  | transport m => simp [makeRequestRun, exitsOf]

@[simp]
theorem derefsOf_getIpAddressRun (o : IpOutcome) :
    derefsOf (getIpAddressRun o).1 = [] := by
  cases o with
  | http s ip =>
      by_cases h : s = 200 <;> simp [getIpAddressRun, derefsOf, h]
  | transport m => simp [getIpAddressRun, derefsOf]

@[simp]
theorem derefsOf_makeRequestRun (tok url method : String)
    (hw : Option HardwareInfo) (iph : Option String) (b : Option ReqBody)
    (o : NetOutcome) :
    derefsOf (makeRequestRun tok url method hw iph b o).1 = [] := by
  cases o with
  | http s rb =>
      by_cases h : s = 200 <;> simp [makeRequestRun, derefsOf, h]
  | transport m => simp [makeRequestRun, derefsOf]

/-- Result of makeRequest on success and failure. -/
theorem makeRequestRun_result (tok url method : String)
    (hw : Option HardwareInfo) (iph : Option String) (b : Option ReqBody)
    (o : NetOutcome) :
    (makeRequestRun tok url method hw iph b o).2 =
      (match o with
       | .http s rb =>
           if s = 200 then Except.ok rb
           else Except.error (httpErrMsg s rb.raw)
       | .transport m => Except.error m) := by
  cases o with
  | http s rb => by_cases h : s = 200 <;> simp [makeRequestRun, h]
  | transport m => simp [makeRequestRun]

/-! Helper lemmas about the URL builders. -/

theorem myipUrl_length : myipUrl.length = 20 := by decide

theorem nodeInfoUrl_length (nid : String) :
    (nodeInfoUrl nid).length = 41 + nid.length := by
  have ha : ("https://gateway-run.bls.dev/api/v1" : String).length = 34 := by
    decide
  have hb : ("/nodes/" : String).length = 7 := by decide
  simp only [nodeInfoUrl, baseUrl, String.length_append, ha, hb]

theorem pingSessionUrl_length (nid : String) :
    (pingSessionUrl nid).length = 46 + nid.length := by
  have ha : ("https://gateway-run.bls.dev/api/v1" : String).length = 34 := by
    decide
  have hb : ("/nodes/" : String).length = 7 := by decide
  have hc : ("/ping" : String).length = 5 := by decide
  simp only [pingSessionUrl, baseUrl, String.length_append, ha, hb, hc]
  omega

theorem startSessionUrl_length (nid : String) :
    (startSessionUrl nid).length = 55 + nid.length := by
  have ha : ("https://gateway-run.bls.dev/api/v1" : String).length = 34 := by
    decide
  have hb : ("/nodes/" : String).length = 7 := by decide
  have hc : ("/start-session" : String).length = 14 := by decide
  simp only [startSessionUrl, baseUrl, String.length_append, ha, hb, hc]
  omega

theorem stopSessionUrl_length (nid : String) :
    (stopSessionUrl nid).length = 54 + nid.length := by
  have ha : ("https://gateway-run.bls.dev/api/v1" : String).length = 34 := by
    decide
  have hb : ("/nodes/" : String).length = 7 := by decide
  have hc : ("/stop-session" : String).length = 13 := by decide
  simp only [stopSessionUrl, baseUrl, String.length_append, ha, hb, hc]
  omega

theorem myip_ne_nodeInfo (nid : String) : myipUrl ≠ nodeInfoUrl nid := by
  intro h
  have h0 := congrArg String.length h
  rw [myipUrl_length, nodeInfoUrl_length] at h0
  omega

theorem myip_ne_ping (nid : String) : myipUrl ≠ pingSessionUrl nid := by
  intro h
  have h0 := congrArg String.length h
  rw [myipUrl_length, pingSessionUrl_length] at h0
  omega

theorem myip_ne_start (nid : String) : myipUrl ≠ startSessionUrl nid := by
  intro h
  have h0 := congrArg String.length h
  rw [myipUrl_length, startSessionUrl_length] at h0
  omega

theorem myip_ne_stop (nid : String) : myipUrl ≠ stopSessionUrl nid := by
  intro h
  have h0 := congrArg String.length h
  rw [myipUrl_length, stopSessionUrl_length] at h0
  omega

theorem nodeInfo_ne_ping (nid : String) :
    nodeInfoUrl nid ≠ pingSessionUrl nid := by
  intro h
  have h0 := congrArg String.length h
  rw [nodeInfoUrl_length, pingSessionUrl_length] at h0
  omega

theorem start_ne_ping (nid : String) :
    startSessionUrl nid ≠ pingSessionUrl nid := by
  intro h
  have h0 := congrArg String.length h
  rw [startSessionUrl_length, pingSessionUrl_length] at h0
  omega

/-! Helper lemmas about one firing of the ping interval. -/

theorem pingCycleRun_currentSession (env : ProcEnv) (hw : HardwareInfo)
    (st : MainState) (co : CycleOracle) :
    (pingCycleRun env hw st co).2.currentSession = st.currentSession := by
  cases hs : st.currentSession with
  | none => simp [pingCycleRun, hs]
  | some d =>
      cases ho : co.pingResp with
      | http s rb =>
          by_cases h : s = 200 <;>
            simp [pingCycleRun, makeRequestRun, hs, ho, h]
      | transport m => simp [pingCycleRun, makeRequestRun, hs, ho]

theorem derefsOf_pingCycleRun (env : ProcEnv) (hw : HardwareInfo)
    (st : MainState) (co : CycleOracle) :
    derefsOf (pingCycleRun env hw st co).1 = [st.currentSession.isSome] := by
  cases hs : st.currentSession with
  | none => simp [pingCycleRun, hs]
  | some d =>
      cases ho : co.pingResp with
      | http s rb =>
          by_cases h : s = 200 <;>
            simp [pingCycleRun, makeRequestRun, hs, ho, h]
      | transport m =>
          simp [pingCycleRun, makeRequestRun, hs, ho]

theorem exitsOf_pingCycleRun (env : ProcEnv) (hw : HardwareInfo)
    (st : MainState) (co : CycleOracle) :
    exitsOf (pingCycleRun env hw st co).1 = [] := by
  cases hs : st.currentSession with
  | none => simp [pingCycleRun, hs]
  | some d =>
      cases ho : co.pingResp with
      | http s rb =>
          by_cases h : s = 200 <;>
            simp [pingCycleRun, makeRequestRun, hs, ho, h]
      | transport m =>
          simp [pingCycleRun, makeRequestRun, hs, ho]

theorem hwQueriesOf_pingCycleRun (env : ProcEnv) (hw : HardwareInfo)
    (st : MainState) (co : CycleOracle) :
    hwQueriesOf (pingCycleRun env hw st co).1 = [] := by
  cases hs : st.currentSession with
  | none => simp [pingCycleRun, hs]
  | some d =>
      cases ho : co.pingResp with
      | http s rb =>
          by_cases h : s = 200 <;>
            simp [pingCycleRun, makeRequestRun, hs, ho, h]
      | transport m =>
          simp [pingCycleRun, makeRequestRun, hs, ho]

theorem reqsOf_pingCycleRun (env : ProcEnv) (hw : HardwareInfo)
    (st : MainState) (co : CycleOracle) :
    reqsOf (pingCycleRun env hw st co).1 =
      (match st.currentSession with
       | none => [ipReqEvent]
       | some d =>
           [ipReqEvent,
            mkReqEvent (envToken env) (pingSessionUrl (envNodeId env))
              "POST" none none
              (some (pingBody (getIpAddressRun co.ipOutcome).2 hw d))]) := by
  cases hs : st.currentSession with
  | none => simp [pingCycleRun, hs]
  | some d =>
      cases ho : co.pingResp with
      | http s rb =>
          by_cases h : s = 200 <;>
            simp [pingCycleRun, makeRequestRun, mkReqEvent, hs, ho, h]
      | transport m =>
          simp [pingCycleRun, makeRequestRun, mkReqEvent, hs, ho]

theorem pingCycleRun_head (env : ProcEnv) (hw : HardwareInfo)
    (st : MainState) (co : CycleOracle) :
    ((pingCycleRun env hw st co).1).head? =
      some (Event.delayMs (jitterDelayMs co.jitterR)) := by
  cases hs : st.currentSession with
  | none => simp [pingCycleRun, hs]
  | some d =>
      cases ho : co.pingResp with
      | http s rb =>
          by_cases h : s = 200 <;>
            simp [pingCycleRun, makeRequestRun, hs, ho, h]
      | transport m => simp [pingCycleRun, makeRequestRun, hs, ho]

/-! Helper lemmas about the whole interval run. -/

theorem runCycles_currentSession (env : ProcEnv) (hw : HardwareInfo) :
    ∀ (cycles : List CycleOracle) (st : MainState),
      (runCycles env hw st cycles).2.currentSession = st.currentSession := by
  intro cycles
  induction cycles with
  | nil => intro st; simp [runCycles]
  | cons co rest ih =>
      intro st
      simp [runCycles, ih, pingCycleRun_currentSession]

theorem derefsOf_runCycles (env : ProcEnv) (hw : HardwareInfo) :
    ∀ (cycles : List CycleOracle) (st : MainState),
      (derefsOf (runCycles env hw st cycles).1).length = cycles.length := by
  intro cycles
  induction cycles with
  | nil => intro st; simp [runCycles]
  | cons co rest ih =>
      intro st
      simp [runCycles, derefsOf_pingCycleRun, ih]

theorem exitsOf_runCycles (env : ProcEnv) (hw : HardwareInfo) :
    ∀ (cycles : List CycleOracle) (st : MainState),
      exitsOf (runCycles env hw st cycles).1 = [] := by
  intro cycles
  induction cycles with
  | nil => intro st; simp [runCycles]
  | cons co rest ih =>
      intro st
      simp [runCycles, exitsOf_pingCycleRun, ih]

theorem hwQueriesOf_runCycles (env : ProcEnv) (hw : HardwareInfo) :
    ∀ (cycles : List CycleOracle) (st : MainState),
      hwQueriesOf (runCycles env hw st cycles).1 = [] := by
  intro cycles
  induction cycles with
  | nil => intro st; simp [runCycles]
  | cons co rest ih =>
      intro st
      simp [runCycles, hwQueriesOf_pingCycleRun, ih]

/-- Every request of an interval run is either the bare IP lookup or a
ping POST carrying the identifier of the session object threaded through
the state. -/
theorem reqsOf_runCycles_mem (env : ProcEnv) (hw : HardwareInfo) :
    ∀ (cycles : List CycleOracle) (st : MainState) (d : RespBody),
      st.currentSession = some d →
      ∀ r ∈ reqsOf (runCycles env hw st cycles).1,
        r = ipReqEvent ∨
        (r.url = pingSessionUrl (envNodeId env) ∧ r.proxied = true ∧
          r.defaultHdrs = true ∧ bodySessionIdOf r = d.idField ∧
          bodyHwOf r = some hw ∧ r.hwHeader = none) := by
  intro cycles
  induction cycles with
  | nil => intro st d hd r hr; simp [runCycles] at hr
  | cons co rest ih =>
      intro st d hd r hr
      simp only [runCycles, reqsOf_append, List.mem_append] at hr
      rcases hr with hr | hr
      · rw [reqsOf_pingCycleRun] at hr
        rw [hd] at hr
        simp only [List.mem_cons, List.mem_singleton] at hr
        rcases hr with hr | hr | hr
        · exact Or.inl hr
        · subst hr
          exact Or.inr (by
            simp [mkReqEvent, bodySessionIdOf, bodyHwOf, pingBody])
        · simp at hr
      · exact ih _ d (by rw [pingCycleRun_currentSession, hd]) r hr

/-! Helper lemmas about startSession. -/

theorem reqsOf_startSessionRun (env : ProcEnv) (ipo : IpOutcome)
    (o : NetOutcome) :
    reqsOf (startSessionRun env ipo o).1 =
      [ipReqEvent,
       mkReqEvent (envToken env) (startSessionUrl (envNodeId env)) "POST"
         none none
         (some (startBody (getIpAddressRun ipo).2 (hwSnapshot env)))] := by
  cases o with
  | http s rb =>
      by_cases h : s = 200 <;> simp [startSessionRun, makeRequestRun, h]
  | transport m => simp [startSessionRun, makeRequestRun]

theorem hwQueriesOf_startSessionRun (env : ProcEnv) (ipo : IpOutcome)
    (o : NetOutcome) :
    hwQueriesOf (startSessionRun env ipo o).1 = [hwSnapshot env] := by
  cases o with
  | http s rb =>
      by_cases h : s = 200 <;> simp [startSessionRun, makeRequestRun, h]
  | transport m => simp [startSessionRun, makeRequestRun]

theorem exitsOf_startSessionRun (env : ProcEnv) (ipo : IpOutcome)
    (o : NetOutcome) :
    exitsOf (startSessionRun env ipo o).1 = [] := by
  cases o with
  | http s rb =>
      by_cases h : s = 200 <;> simp [startSessionRun, makeRequestRun, h]
  | transport m => simp [startSessionRun, makeRequestRun]

theorem startSessionRun_result (env : ProcEnv) (ipo : IpOutcome)
    (o : NetOutcome) :
    (startSessionRun env ipo o).2 =
      (match o with
       | .http s d => if s = 200 then some d else none
       | .transport _ => none) := by
  cases o with
  | http s rb =>
      by_cases h : s = 200 <;> simp [startSessionRun, makeRequestRun, h]
  | transport m => simp [startSessionRun, makeRequestRun]

theorem startSessionRun_result_none_iff (env : ProcEnv) (ipo : IpOutcome)
    (o : NetOutcome) :
    (startSessionRun env ipo o).2 = none ↔ isNetFailure o = true := by
  rw [startSessionRun_result]
  cases o with
  | http s rb =>
      by_cases h : s = 200 <;> simp [isNetFailure, h]
  | transport m => simp [isNetFailure]

/-! Helper lemmas about the startup sequence of main. -/

theorem exitsOf_mainRun (env : ProcEnv) (so : StartupOracle)
    (cycles : List CycleOracle) :
    exitsOf (mainRun env so cycles) =
      (if isNetFailure so.nodeData || isNetFailure so.startResp
       then [1] else []) := by
  cases hnd : so.nodeData with
  | http s rb =>
      by_cases h : s = 200
      · cases hss : so.startResp with
        | http s2 rb2 =>
            by_cases h2 : s2 = 200 <;>
              simp [mainRun, makeRequestRun, startSessionRun, fatalEvents,
                isNetFailure, exitsOf_runCycles, hnd, hss, h, h2]
        | transport m2 =>
            simp [mainRun, makeRequestRun, startSessionRun, fatalEvents,
              isNetFailure, hnd, hss, h]
      · simp [mainRun, makeRequestRun, fatalEvents, isNetFailure, hnd, h]
  | transport m =>
      simp [mainRun, makeRequestRun, fatalEvents, isNetFailure, hnd]

theorem hwQueriesOf_mainRun (env : ProcEnv) (so : StartupOracle)
    (cycles : List CycleOracle) :
    hwQueriesOf (mainRun env so cycles) =
      (if isNetFailure so.nodeData
       then [hwSnapshot env]
       else [hwSnapshot env, hwSnapshot env]) := by
  cases hnd : so.nodeData with
  | http s rb =>
      by_cases h : s = 200
      · cases hss : so.startResp with
        | http s2 rb2 =>
            by_cases h2 : s2 = 200 <;>
              simp [mainRun, makeRequestRun, startSessionRun, fatalEvents,
                isNetFailure, hwQueriesOf_runCycles, hnd, hss, h, h2]
        | transport m2 =>
            simp [mainRun, makeRequestRun, startSessionRun, fatalEvents,
              isNetFailure, hnd, hss, h]
      · simp [mainRun, makeRequestRun, fatalEvents, isNetFailure, hnd, h]
  | transport m =>
      simp [mainRun, makeRequestRun, fatalEvents, isNetFailure, hnd]

/-- Shape of every request the startup sequence and the interval issue:
the bare IP lookup, the node-info fetch, the start-session POST, or a
ping POST that carries the identifier of the session that start returned. -/
theorem reqsOf_mainRun_mem (env : ProcEnv) (so : StartupOracle)
    (cycles : List CycleOracle) :
    ∀ r ∈ reqsOf (mainRun env so cycles),
      r = ipReqEvent ∨
      r = mkReqEvent (envToken env) (nodeInfoUrl (envNodeId env)) "GET"
            (some (hwSnapshot env)) (some (getIpAddressRun so.ip1).2)
            none ∨
      r = mkReqEvent (envToken env) (startSessionUrl (envNodeId env))
            "POST" none none
            (some (startBody (getIpAddressRun so.startIp).2
              (hwSnapshot env))) ∨
      (∃ d, (startSessionRun env so.startIp so.startResp).2 = some d ∧
        r.url = pingSessionUrl (envNodeId env) ∧ r.proxied = true ∧
        r.defaultHdrs = true ∧ bodySessionIdOf r = d.idField ∧
        bodyHwOf r = some (hwSnapshot env) ∧ r.hwHeader = none) := by
  intro r hr
  cases hnd : so.nodeData with
  | http s rb =>
      by_cases h : s = 200
      · cases hss : so.startResp with
        | http s2 rb2 =>
            by_cases h2 : s2 = 200
            · rw [mainRun] at hr
              simp only [hnd, hss] at hr
              simp only [makeRequestRun, startSessionRun, h, h2, if_pos,
                if_true, reduceIte] at hr
              simp only [reqsOf_append, reqsOf_cons, reqsOf_nil,
                reqsOf_getIpAddressRun, List.mem_append, List.mem_cons,
                List.mem_singleton, List.not_mem_nil, or_false,
                false_or] at hr
              rcases hr with ((hr | hr) | hr | hr) | hr
              · exact Or.inl hr
              · exact Or.inr (Or.inl hr)
              · exact Or.inl hr
              · exact Or.inr (Or.inr (Or.inl hr))
              · have hmem := reqsOf_runCycles_mem env (hwSnapshot env)
                  cycles { currentSession := some rb2, lastPingTime := none }
                  rb2 rfl r hr
                rcases hmem with hm | hm
                · exact Or.inl hm
                · refine Or.inr (Or.inr (Or.inr ⟨rb2, ?_, hm.1, hm.2.1,
                    hm.2.2.1, hm.2.2.2.1, hm.2.2.2.2.1, hm.2.2.2.2.2⟩))
                  rw [startSessionRun_result]
                  simp [hss, h2]
            · rw [mainRun] at hr
              simp only [hnd, hss] at hr
              simp only [makeRequestRun, startSessionRun, fatalEvents, h, h2,
                reduceIte] at hr
              simp only [reqsOf_append, reqsOf_cons, reqsOf_nil,
                reqsOf_getIpAddressRun, List.mem_append, List.mem_cons,
                List.mem_singleton, List.not_mem_nil, or_false,
                false_or] at hr
              rcases hr with (hr | hr) | hr | hr
              · exact Or.inl hr
              · exact Or.inr (Or.inl hr)
              · exact Or.inl hr
              · exact Or.inr (Or.inr (Or.inl hr))
        | transport m2 =>
            rw [mainRun] at hr
            simp only [hnd, hss] at hr
            simp only [makeRequestRun, startSessionRun, fatalEvents, h,
              reduceIte] at hr
            simp only [reqsOf_append, reqsOf_cons, reqsOf_nil,
              reqsOf_getIpAddressRun, List.mem_append, List.mem_cons,
              List.mem_singleton, List.not_mem_nil, or_false,
              false_or] at hr
            rcases hr with (hr | hr) | hr | hr
            · exact Or.inl hr
            · exact Or.inr (Or.inl hr)
            · exact Or.inl hr
            · exact Or.inr (Or.inr (Or.inl hr))
      · rw [mainRun] at hr
        simp only [hnd] at hr
        simp only [makeRequestRun, fatalEvents, h, reduceIte] at hr
        simp only [reqsOf_append, reqsOf_cons, reqsOf_nil,
          reqsOf_getIpAddressRun, List.mem_append, List.mem_cons,
          List.mem_singleton, List.not_mem_nil, or_false, false_or] at hr
        rcases hr with hr | hr
        · exact Or.inl hr
        · exact Or.inr (Or.inl hr)
  | transport m =>
      rw [mainRun] at hr
      simp only [hnd] at hr
      simp only [makeRequestRun, fatalEvents, reduceIte] at hr
      simp only [reqsOf_append, reqsOf_cons, reqsOf_nil,
        reqsOf_getIpAddressRun, List.mem_append, List.mem_cons,
        List.mem_singleton, List.not_mem_nil, or_false, false_or] at hr
      rcases hr with hr | hr
      · exact Or.inl hr
      · exact Or.inr (Or.inl hr)

/-! Claim theorems. -/

/-- C2 counterexample: status 201 is a success (2xx) status, yet
makeRequest raises rather than returning the body, and the raised error
carries the full one-thousand-character response body, far beyond a cap
of a few hundred characters. -/
theorem makeRequest_rejects_201_untruncated :
    (200 ≤ 201 ∧ 201 < 300) ∧
    (makeRequestRun "tok" (startSessionUrl "node-1") "POST" none none none
        (NetOutcome.http 201 resp201)).2 =
      Except.error (httpErrMsg 201 longRaw) ∧
    500 < (httpErrMsg 201 longRaw).length := by
  refine ⟨by decide, rfl, ?_⟩
  have h1 : longRaw.length = 1000 := by
    rw [longRaw, String.length_mk, List.length_replicate]
  simp only [httpErrMsg, String.length_append, h1]
  omega

/-- C2 (amended): makeRequest returns the response body exactly when the
status is exactly 200; on any other status it raises an error carrying
the status code and the full stringified response body, untruncated; a
transport failure is rethrown with its own message. -/
theorem makeRequest_success_iff_200 (tok url method : String)
    (hw : Option HardwareInfo) (iph : Option String) (b : Option ReqBody)
    (s : Nat) (rb : RespBody) :
    ((makeRequestRun tok url method hw iph b (NetOutcome.http s rb)).2 =
        Except.ok rb ↔ s = 200) ∧
    (s ≠ 200 →
      (makeRequestRun tok url method hw iph b (NetOutcome.http s rb)).2 =
        Except.error (httpErrMsg s rb.raw)) ∧
    (∀ m, (makeRequestRun tok url method hw iph b
        (NetOutcome.transport m)).2 = Except.error m) := by
  refine ⟨?_, ?_, ?_⟩
  · by_cases h : s = 200 <;> simp [makeRequestRun, h]
  · intro h; simp [makeRequestRun, h]
  · intro m; simp [makeRequestRun]

/-- C2 witness: at status 404 the hypothesis of the amended theorem holds
and the error carries the status and the body. -/
theorem makeRequest_success_iff_200_witness :
    (404 : Nat) ≠ 200 ∧
    (makeRequestRun "tok" myipUrl "POST" none none none
        (NetOutcome.http 404 resp201)).2 =
      Except.error (httpErrMsg 404 resp201.raw) :=
  ⟨by decide,
   (makeRequest_success_iff_200 "tok" myipUrl "POST" none none none 404
     resp201).2.1 (by decide)⟩

/-- C8: the log lines makeRequest emits on a failing request are the same
for every value of the bearer token, and are a function of the network
outcome (status and body, or transport message) alone, even though the
request itself carries the token in its Authorization header. -/
theorem request_failure_logs_token_independent (t1 t2 url method : String)
    (hw : Option HardwareInfo) (iph : Option String) (b : Option ReqBody)
    (o : NetOutcome) :
    logsOf (makeRequestRun t1 url method hw iph b o).1 =
      logsOf (makeRequestRun t2 url method hw iph b o).1 ∧
    logsOf (makeRequestRun t1 url method hw iph b o).1 = failureLogsOf o ∧
    (mkReqEvent t1 url method hw iph b).authHeader = "Bearer " ++ t1 := by
  refine ⟨?_, ?_, rfl⟩ <;> rw [logsOf_makeRequestRun]
  rw [logsOf_makeRequestRun]

/-- C9: for a uniform draw r in the unit interval, the jitter slept
before each ping is exactly 1000 plus r times 4000 milliseconds, lies in
the window from 1000 inclusive to 5000 exclusive, is the first event of
every cycle, and the map is strictly monotone onto that window, so the
jitter is uniformly distributed over one to five seconds. -/
theorem ping_jitter_uniform (r : ℚ) (h0 : 0 ≤ r) (h1 : r < 1) :
    jitterDelayMs r = 1000 + r * 4000 ∧
    1000 ≤ jitterDelayMs r ∧ jitterDelayMs r < 5000 ∧
    (∀ env hw st co, ((pingCycleRun env hw st co).1).head? =
      some (Event.delayMs (jitterDelayMs co.jitterR))) ∧
    StrictMono jitterDelayMs ∧
    (∀ d : ℚ, 1000 ≤ d → d < 5000 →
      ∃ q, 0 ≤ q ∧ q < 1 ∧ jitterDelayMs q = d) := by
  refine ⟨rfl, ?_, ?_, pingCycleRun_head, ?_, ?_⟩
  · simp only [jitterDelayMs]
    nlinarith
  · simp only [jitterDelayMs]
    nlinarith
  · intro a b hab
    simp only [jitterDelayMs]
    nlinarith
  · intro d hd1 hd2
    refine ⟨(d - 1000) / 4000, by nlinarith, by nlinarith, ?_⟩
    simp only [jitterDelayMs]
    ring_nf

/-- C9 witness: the jitter bounds instantiated at the draw one half. -/
theorem ping_jitter_uniform_witness :
    ((0 : ℚ) ≤ 1/2 ∧ (1/2 : ℚ) < 1) ∧
    (1000 ≤ jitterDelayMs (1/2) ∧ jitterDelayMs (1/2) < 5000) :=
  ⟨⟨by norm_num, by norm_num⟩,
   ⟨(ping_jitter_uniform (1/2) (by norm_num) (by norm_num)).2.1,
    (ping_jitter_uniform (1/2) (by norm_num) (by norm_num)).2.2.1⟩⟩

/-- Reassociation helper for the rendered proxy URL. -/
theorem append_around_undefined (a u b c e d p : String) :
    a ++ u ++ b ++ "undefined" ++ c ++ e ++ d ++ p =
      (a ++ u ++ b) ++ "undefined" ++ (c ++ e ++ d ++ p) := by
  simp [String.append_assoc]

/-- C10: a proxy line with fewer than four colon separated fields still
contributes an entry to the pool (every line does), its missing password
field is absent, the rendered proxy URL for it contains the literal text
undefined, and the only startup validation of the pool is the emptiness
check. -/
theorem proxy_lines_never_validated (line : String)
    (h : (splitCols line).length < 4) :
    (∀ lines, (loadProxies lines).length = lines.length) ∧
    (parseProxyLine line).password = none ∧
    (∃ pre post,
      getRandomProxy (loadProxies [line]) ⟨0, by simp [loadProxies]⟩ =
        pre ++ "undefined" ++ post) ∧
    (∀ lines, proxyPoolEmpty lines = true ↔ lines = []) := by
  have hpw : (parseProxyLine line).password = none := by
    simp only [parseProxyLine]
    exact List.getElem?_eq_none (by omega)
  refine ⟨?_, hpw, ?_, ?_⟩
  · intro lines; simp [loadProxies]
  · refine ⟨"http://" ++ jsStr (parseProxyLine line).username ++ ":",
      "@" ++ jsStr (parseProxyLine line).host ++ ":" ++
        jsStr (parseProxyLine line).port, ?_⟩
    have hg : getRandomProxy (loadProxies [line])
        ⟨0, by simp [loadProxies]⟩ = renderProxyUrl (parseProxyLine line) := by
      simp [getRandomProxy, loadProxies]
    have hn : jsStr none = "undefined" := rfl
    rw [hg, renderProxyUrl, hpw, hn]
    exact append_around_undefined "http://" (jsStr (parseProxyLine line).username)
      ":" "@" (jsStr (parseProxyLine line).host) ":"
      (jsStr (parseProxyLine line).port)
  · intro lines
    simp [proxyPoolEmpty, loadProxies, List.length_eq_zero]

/-- C10 witness: a line with only host and port. -/
theorem proxy_lines_never_validated_witness :
    (splitCols "1.2.3.4:8080").length < 4 ∧
    (parseProxyLine "1.2.3.4:8080").password = none :=
  ⟨by decide,
   (proxy_lines_never_validated "1.2.3.4:8080" (by decide)).2.1⟩

/-- C4: on the shutdown signal the handler exits with code 0 in every
case; with a session set it issues exactly one stop-session request
carrying that session identifier, whatever the outcome of the stop call;
with no session set it issues no request. -/
theorem sigint_single_stop_and_exit0 (env : ProcEnv)
    (cs : Option RespBody) (o : NetOutcome) :
    (sigintHandlerRun env cs o).2 = 0 ∧
    Event.exited 0 ∈ (sigintHandlerRun env cs o).1 ∧
    reqsOf (sigintHandlerRun env cs o).1 =
      (match cs with
       | none => []
       | some d => [stopReqEvent env d]) ∧
    (∀ d : RespBody,
      (stopReqEvent env d).url = stopSessionUrl (envNodeId env) ∧
      bodySessionIdOf (stopReqEvent env d) = d.idField) := by
  refine ⟨?_, ?_, ?_, fun d => ⟨rfl, rfl⟩⟩
  · cases cs with
    | none => rfl
    | some d =>
        cases o with
        | http s rb =>
            by_cases h : s = 200 <;>
              simp [sigintHandlerRun, makeRequestRun, h]
        | transport m => simp [sigintHandlerRun, makeRequestRun]
  · cases cs with
    | none => simp [sigintHandlerRun]
    | some d =>
        cases o with
        | http s rb =>
            by_cases h : s = 200 <;>
              simp [sigintHandlerRun, makeRequestRun, h]
        | transport m => simp [sigintHandlerRun, makeRequestRun]
  · cases cs with
    | none => simp [sigintHandlerRun]
    | some d =>
        cases o with
        | http s rb =>
            by_cases h : s = 200 <;>
              simp [sigintHandlerRun, makeRequestRun, stopReqEvent,
                stopBody, h]
        | transport m =>
            simp [sigintHandlerRun, makeRequestRun, stopReqEvent, stopBody]

/-- C3: when the ping of one scheduled cycle fails, the cycle leaves the
stored session unchanged, and the run over the remaining scheduled
firings still processes every one of them (one dereference of the
session per firing), with the session identifier still unchanged at the
end. -/
theorem ping_failure_keeps_loop_and_session (env : ProcEnv)
    (hw : HardwareInfo) (st : MainState) (co : CycleOracle)
    (rest : List CycleOracle) (hfail : isNetFailure co.pingResp = true)
    (hset : st.currentSession.isSome = true) :
    (pingCycleRun env hw st co).2.currentSession = st.currentSession ∧
    (derefsOf (runCycles env hw st (co :: rest)).1).length =
      rest.length + 1 ∧
    (runCycles env hw st (co :: rest)).2.currentSession =
      st.currentSession := by
  refine ⟨pingCycleRun_currentSession env hw st co, ?_,
    runCycles_currentSession env hw (co :: rest) st⟩
  rw [derefsOf_runCycles]
  simp

/-- C3 witness: a failing ping cycle on a live session. -/
theorem ping_failure_keeps_loop_and_session_witness :
    (isNetFailure coFail.pingResp = true ∧
      stSome.currentSession.isSome = true) ∧
    (pingCycleRun envOk hwOk stSome coFail).2.currentSession =
      stSome.currentSession :=
  ⟨⟨by decide, by decide⟩,
   (ping_failure_keeps_loop_and_session envOk hwOk stSome coFail []
     (by decide) (by decide)).1⟩

/-- The startup pool check fails exactly on an empty file. -/
theorem proxyPoolEmpty_iff (lines : List String) :
    proxyPoolEmpty lines = true ↔ lines = [] := by
  simp [proxyPoolEmpty, loadProxies, List.length_eq_zero]

/-- A failing startup sequence sleeps the 30 second cooldown. -/
theorem delay30_mainRun (env : ProcEnv) (so : StartupOracle)
    (cycles : List CycleOracle)
    (h : isNetFailure so.nodeData = true ∨
      isNetFailure so.startResp = true) :
    Event.delayMs 30000 ∈ mainRun env so cycles := by
  cases hnd : so.nodeData with
  | http s rb =>
      by_cases hs : s = 200
      · cases hss : so.startResp with
        | http s2 rb2 =>
            by_cases hs2 : s2 = 200
            · exfalso
              rcases h with h | h <;>
                simp [isNetFailure, hnd, hss, hs, hs2] at h
            · simp [mainRun, makeRequestRun, startSessionRun, fatalEvents,
                hnd, hss, hs, hs2]
        | transport m2 =>
            simp [mainRun, makeRequestRun, startSessionRun, fatalEvents,
              hnd, hss, hs]
      · simp [mainRun, makeRequestRun, fatalEvents, hnd, hs]
  | transport m => simp [mainRun, makeRequestRun, fatalEvents, hnd]

/-- C1 counterexample: a ping cycle fired with no session set is not
skipped: the cycle evaluates the session dereference (which can only
fail), logs a ping failure and sleeps the error delay. -/
theorem ping_cycle_none_not_skipped :
    stNone.currentSession = none ∧
    Event.derefSession false ∈ (pingCycleRun envOk hwOk stNone coOk).1 ∧
    (logTag ++ " Ping failed: TypeError: cannot read _id of null") ∈
      logsOf (pingCycleRun envOk hwOk stNone coOk).1 ∧
    Event.delayMs 5000 ∈ (pingCycleRun envOk hwOk stNone coOk).1 := by
  refine ⟨rfl, by decide, by decide, ?_⟩
  simp [pingCycleRun, stNone, coOk, getIpAddressRun]

/-- C1 (amended): a ping request is issued only while a session is set:
a cycle fired with no session issues no ping request (only the IP
lookup; the unguarded dereference fails and is caught), and in every
whole-program run every request to the ping endpoint carries the session
identifier returned by the successful session start. -/
theorem ping_requests_only_with_session :
    (∀ env hw st co, st.currentSession = none →
      ∀ r ∈ reqsOf (pingCycleRun env hw st co).1, r = ipReqEvent) ∧
    (∀ env lines so cycles,
      ∀ r ∈ reqsOf (runProgram env lines so cycles),
        r.url = pingSessionUrl (envNodeId env) →
        ∃ d, (startSessionRun env so.startIp so.startResp).2 = some d ∧
          bodySessionIdOf r = d.idField) := by
  constructor
  · intro env hw st co hnone r hr
    rw [reqsOf_pingCycleRun, hnone] at hr
    simpa using hr
  · intro env lines so cycles r hr hurl
    by_cases he : (isFalsy env.nodeIdEnv || isFalsy env.authTokenEnv) = true
    · simp [runProgram, he] at hr
    · by_cases hp : proxyPoolEmpty lines = true
      · simp [runProgram, he, hp] at hr
      · simp only [runProgram, he, hp, Bool.false_eq_true, if_false,
          if_neg] at hr
        have hm := reqsOf_mainRun_mem env so cycles r hr
        rcases hm with hm | hm | hm | hm
        · rw [hm] at hurl
          exact absurd hurl (myip_ne_ping (envNodeId env))
        · rw [hm] at hurl
          exact absurd hurl (nodeInfo_ne_ping (envNodeId env))
        · rw [hm] at hurl
          exact absurd hurl (start_ne_ping (envNodeId env))
        · exact ⟨hm.choose, hm.choose_spec.1, hm.choose_spec.2.2.2.2.1⟩

/-- C1 witness: the amended theorem applied to a cycle with no session
and the one request it issues, the bare IP lookup. -/
theorem ping_requests_only_with_session_witness :
    stNone.currentSession = none ∧ ipReqEvent = ipReqEvent :=
  ⟨rfl, ping_requests_only_with_session.1 envOk hwOk stNone coOk rfl
    ipReqEvent (by decide)⟩

/-- C5 counterexample: with both environment variables present and a
nonempty pool, a failing node-info fetch also terminates the process
with exit code 1, although it is neither a configuration failure nor a
session-start failure (no start-session request was ever issued). -/
theorem exit_on_nodeinfo_failure :
    isFalsy envOk.nodeIdEnv = false ∧
    isFalsy envOk.authTokenEnv = false ∧
    linesOk ≠ [] ∧
    Event.exited 1 ∈ runProgram envOk linesOk soNodeFail [] ∧
    (∀ r ∈ reqsOf (runProgram envOk linesOk soNodeFail []),
      r.url ≠ startSessionUrl (envNodeId envOk)) := by
  refine ⟨rfl, rfl, by decide, by decide, by decide⟩

/-- C5 (amended): the process exits with a nonzero code exactly on a
configuration failure (missing or empty environment variable, or empty
proxy pool), a node-info fetch failure, or a session-start failure; the
missing-environment exit emits no request; every exit code is 1; a
startup-sequence failure sleeps the 30 second cooldown first; and a
ping cycle never emits an exit. -/
theorem exit_paths_characterized :
    (∀ env lines so cycles,
      ((1 : Nat) ∈ exitsOf (runProgram env lines so cycles) ↔
        (isFalsy env.nodeIdEnv || isFalsy env.authTokenEnv) = true ∨
        lines = [] ∨ isNetFailure so.nodeData = true ∨
        isNetFailure so.startResp = true)) ∧
    (∀ env lines so cycles,
      (isFalsy env.nodeIdEnv || isFalsy env.authTokenEnv) = true →
      reqsOf (runProgram env lines so cycles) = []) ∧
    (∀ env hw st co, exitsOf (pingCycleRun env hw st co).1 = []) ∧
    (∀ env lines so cycles c,
      c ∈ exitsOf (runProgram env lines so cycles) → c = 1) ∧
    (∀ env lines so cycles,
      ¬ (isFalsy env.nodeIdEnv || isFalsy env.authTokenEnv) = true →
      ¬ proxyPoolEmpty lines = true →
      (isNetFailure so.nodeData = true ∨
        isNetFailure so.startResp = true) →
      Event.delayMs 30000 ∈ runProgram env lines so cycles) := by
  refine ⟨?_, ?_, exitsOf_pingCycleRun, ?_, ?_⟩
  · intro env lines so cycles
    by_cases he : (isFalsy env.nodeIdEnv || isFalsy env.authTokenEnv) = true
    · simp [runProgram, he]
    · by_cases hp : proxyPoolEmpty lines = true
      · have hl : lines = [] := (proxyPoolEmpty_iff lines).mp hp
        subst hl
        simp [runProgram, he, hp]
      · have hl : lines ≠ [] := fun hc =>
          hp ((proxyPoolEmpty_iff lines).mpr hc)
        simp only [runProgram, he, hp, Bool.false_eq_true, if_false,
          if_neg] at *
        rw [exitsOf_mainRun]
        by_cases hnd : isNetFailure so.nodeData = true
        · simp [hnd, hl]
        · by_cases hss : isNetFailure so.startResp = true
          · simp [hnd, hss, hl]
          · simp [hnd, hss, hl, he]
  · intro env lines so cycles he
    simp [runProgram, he]
  · intro env lines so cycles c hc
    by_cases he : (isFalsy env.nodeIdEnv || isFalsy env.authTokenEnv) = true
    · simp [runProgram, he] at hc
      exact hc
    · by_cases hp : proxyPoolEmpty lines = true
      · simp [runProgram, he, hp] at hc
        exact hc
      · simp only [runProgram, he, hp, Bool.false_eq_true, if_false,
          if_neg] at hc
        rw [exitsOf_mainRun] at hc
        by_cases hcond : (isNetFailure so.nodeData ||
            isNetFailure so.startResp) = true
        · simp [hcond] at hc
          exact hc
        · simp [hcond] at hc
  · intro env lines so cycles he hp hfail
    have : runProgram env lines so cycles = mainRun env so cycles := by
      simp [runProgram, he, hp]
    rw [this]
    exact delay30_mainRun env so cycles hfail

/-- C5 witness: a missing node identifier exits before any request. -/
theorem exit_paths_characterized_witness :
    (isFalsy envNoId.nodeIdEnv || isFalsy envNoId.authTokenEnv) = true ∧
    reqsOf (runProgram envNoId linesOk soOk []) = [] :=
  ⟨by decide,
   exit_paths_characterized.2.1 envNoId linesOk soOk [] (by decide)⟩

/-- C6 counterexample: in a run with a nonempty proxy pool, the
IP-resolution request appears in the trace without the proxy agent and
without the default headers: it bypasses the client adapter. -/
theorem ip_lookup_bypasses_proxy :
    proxyPoolEmpty linesOk = false ∧
    ipReqEvent ∈ reqsOf (runProgram envOk linesOk soOk []) ∧
    ipReqEvent.url = myipUrl ∧
    ipReqEvent.proxied = false ∧
    ipReqEvent.defaultHdrs = false := by
  refine ⟨by decide, by decide, rfl, rfl, rfl⟩

/-- C6 (amended): in every run, every request to the IP-echo endpoint is
issued without proxy and without the default headers, and every other
request goes through the adapter with a pool proxy and the default
headers; the shutdown stop call is likewise proxied. -/
theorem requests_proxied_except_ip :
    (∀ env lines so cycles,
      ∀ r ∈ reqsOf (runProgram env lines so cycles),
        (r.url = myipUrl ∧ r.proxied = false ∧ r.defaultHdrs = false) ∨
        (r.url ≠ myipUrl ∧ r.proxied = true ∧ r.defaultHdrs = true)) ∧
    (∀ env cs o, ∀ r ∈ reqsOf (sigintHandlerRun env cs o).1,
      r.url ≠ myipUrl ∧ r.proxied = true ∧ r.defaultHdrs = true) := by
  constructor
  · intro env lines so cycles r hr
    by_cases he : (isFalsy env.nodeIdEnv || isFalsy env.authTokenEnv) = true
    · simp [runProgram, he] at hr
    · by_cases hp : proxyPoolEmpty lines = true
      · simp [runProgram, he, hp] at hr
      · simp only [runProgram, he, hp, Bool.false_eq_true, if_false,
          if_neg] at hr
        have hm := reqsOf_mainRun_mem env so cycles r hr
        rcases hm with hm | hm | hm | hm
        · exact Or.inl (by rw [hm]; exact ⟨rfl, rfl, rfl⟩)
        · refine Or.inr ⟨?_, by rw [hm]; rfl, by rw [hm]; rfl⟩
          rw [hm]
          exact fun hc => myip_ne_nodeInfo (envNodeId env) hc.symm
        · refine Or.inr ⟨?_, by rw [hm]; rfl, by rw [hm]; rfl⟩
          rw [hm]
          exact fun hc => myip_ne_start (envNodeId env) hc.symm
        · refine Or.inr ⟨?_, hm.choose_spec.2.2.1, hm.choose_spec.2.2.2.1⟩
          rw [hm.choose_spec.2.1]
          exact fun hc => myip_ne_ping (envNodeId env) hc.symm
  · intro env cs o r hr
    cases cs with
    | none => simp [sigintHandlerRun] at hr
    | some d =>
        have heq : reqsOf (sigintHandlerRun env (some d) o).1 =
            [stopReqEvent env d] := by
          cases o with
          | http s rb =>
              by_cases h : s = 200 <;>
                simp [sigintHandlerRun, makeRequestRun, stopReqEvent,
                  stopBody, h]
          | transport m =>
              simp [sigintHandlerRun, makeRequestRun, stopReqEvent,
                stopBody]
        rw [heq] at hr
        simp only [List.mem_singleton] at hr
        subst hr
        refine ⟨?_, rfl, rfl⟩
        exact fun hc => myip_ne_stop (envNodeId env) hc.symm

/-- C6 witness: the amended theorem applied to the IP request of a
concrete run. -/
theorem requests_proxied_except_ip_witness :
    (ipReqEvent.url = myipUrl ∧ ipReqEvent.proxied = false ∧
      ipReqEvent.defaultHdrs = false) ∨
    (ipReqEvent.url ≠ myipUrl ∧ ipReqEvent.proxied = true ∧
      ipReqEvent.defaultHdrs = true) :=
  requests_proxied_except_ip.1 envOk linesOk soOk [] ipReqEvent (by decide)

/-- C7 counterexample: a successful run constructs the hardware snapshot
twice during startup (once in main, once inside startSession), not
once. -/
theorem hw_snapshot_queried_twice :
    (hwQueriesOf (runProgram envOk linesOk soOk [coOk])).length = 2 ∧
    (hwQueriesOf (runProgram envOk linesOk soOk [coOk])).length ≠ 1 := by
  refine ⟨by decide, by decide⟩

/-- C7 (amended): the hardware snapshot is constructed twice during
startup and never afterwards: every construction yields the same value
(the host properties are fixed for the process), no ping cycle
constructs one, and the hardware data of every request body or header
equals that single value whenever present. -/
theorem hw_snapshot_single_value :
    (∀ env lines so cycles,
      ∀ h ∈ hwQueriesOf (runProgram env lines so cycles),
        h = hwSnapshot env) ∧
    (∀ env lines so cycles,
      (hwQueriesOf (runProgram env lines so cycles)).length ≤ 2) ∧
    (∀ env hw st co, hwQueriesOf (pingCycleRun env hw st co).1 = []) ∧
    (∀ env lines so cycles,
      ∀ r ∈ reqsOf (runProgram env lines so cycles),
        (bodyHwOf r = none ∨ bodyHwOf r = some (hwSnapshot env)) ∧
        (r.hwHeader = none ∨ r.hwHeader = some (hwSnapshot env))) := by
  refine ⟨?_, ?_, hwQueriesOf_pingCycleRun, ?_⟩
  · intro env lines so cycles h hh
    by_cases he : (isFalsy env.nodeIdEnv || isFalsy env.authTokenEnv) = true
    · simp [runProgram, he] at hh
    · by_cases hp : proxyPoolEmpty lines = true
      · simp [runProgram, he, hp] at hh
      · simp only [runProgram, he, hp, Bool.false_eq_true, if_false,
          if_neg] at hh
        rw [hwQueriesOf_mainRun] at hh
        by_cases hnd : isNetFailure so.nodeData = true <;>
          simp [hnd] at hh <;> simp [hh]
  · intro env lines so cycles
    by_cases he : (isFalsy env.nodeIdEnv || isFalsy env.authTokenEnv) = true
    · simp [runProgram, he]
    · by_cases hp : proxyPoolEmpty lines = true
      · simp [runProgram, he, hp]
      · simp only [runProgram, he, hp, Bool.false_eq_true, if_false,
          if_neg]
        rw [hwQueriesOf_mainRun]
        by_cases hnd : isNetFailure so.nodeData = true <;> simp [hnd]
  · intro env lines so cycles r hr
    by_cases he : (isFalsy env.nodeIdEnv || isFalsy env.authTokenEnv) = true
    · simp [runProgram, he] at hr
    · by_cases hp : proxyPoolEmpty lines = true
      · simp [runProgram, he, hp] at hr
      · simp only [runProgram, he, hp, Bool.false_eq_true, if_false,
          if_neg] at hr
        have hm := reqsOf_mainRun_mem env so cycles r hr
        rcases hm with hm | hm | hm | hm
        · rw [hm]
          exact ⟨Or.inl rfl, Or.inl rfl⟩
        · rw [hm]
          exact ⟨Or.inl rfl, Or.inr rfl⟩
        · rw [hm]
          refine ⟨Or.inr ?_, Or.inl rfl⟩
          simp [mkReqEvent, bodyHwOf, startBody]
        · refine ⟨Or.inr hm.choose_spec.2.2.2.2.2.1,
            Or.inl hm.choose_spec.2.2.2.2.2.2⟩

/-- C7 witness: the amended theorem applied to a concrete run. -/
theorem hw_snapshot_single_value_witness :
    hwSnapshot envOk = hwSnapshot envOk ∧
    (hwQueriesOf (runProgram envOk linesOk soOk [])).length ≤ 2 :=
  ⟨hw_snapshot_single_value.1 envOk linesOk soOk [] (hwSnapshot envOk)
     (by decide),
   hw_snapshot_single_value.2.1 envOk linesOk soOk []⟩

end Bless
